import Mathlib

/-!
# Version-control backends of `vcs.go`

A shallow embedding of `src/vcs.go`: the seven `VCSBackend` values, their
`Clone` and `Update` functions, and the `vcsRegistry` map.

Everything the backends do to the outside world goes through four calls:
`os.MkdirAll`, `os.Chdir`, `utils.Run` and `utils.RunInDir`.  Each call is
recorded, in order, in a trace of `Call` events, and its Go `error` result is
supplied by a `World`: an arbitrary deterministic description of how the
filesystem and the process runner answer, given everything requested so far.
-/

namespace Vcs

/-! ## Data model -/

/-- A Go `error` value: `none` is `nil`, `some msg` is an error whose text is `msg`. -/
abbrev error := Option String

/-- The constructor `errors.New(msg)`. -/
def errors.New (msg : String) : error := some msg

/-- A parsed remote reference (`*url.URL`, assumed non-nil).  The backends read a
remote only through `remote.String()`, so a remote is represented by that text. -/
structure URL where
  text : String
deriving DecidableEq, Repr

/-- The method `(*url.URL).String`. -/
def URL.String (u : URL) : String := u.text

/-- One request made to the operating system.

* `MkdirAll path perm` is `os.MkdirAll(path, perm)`;
* `Chdir dir` is `os.Chdir(dir)`, which changes the working directory of the
  whole process;
* `Exec none tool args` is the external invocation `utils.Run(tool, args...)`;
* `Exec (some dir) tool args` is the external invocation
  `utils.RunInDir(dir, tool, args...)`, run with working directory `dir`. -/
inductive Call where
  | MkdirAll (path : String) (perm : Nat)
  | Chdir (dir : String)
  | Exec (dir : Option String) (tool : String) (args : List String)
deriving DecidableEq, Repr

/-- Whether a request is an external tool invocation. -/
def Call.isExec : Call → Bool
  | .Exec _ _ _ => true
  | _ => false

/-- The external tool a request names, if it is an invocation. -/
def Call.tool : Call → Option String
  | .Exec _ tool _ => some tool
  | _ => none

/-- Whether a request creates directories. -/
def Call.isMkdirAll : Call → Bool
  | .MkdirAll _ _ => true
  | _ => false

/-- Whether a request changes the working directory of the process. -/
def Call.isChdir : Call → Bool
  | .Chdir _ => true
  | _ => false

/-- The behaviour of the filesystem and of the process runner: the `error`
answered to a request, given the requests made before it (oldest first). -/
abbrev World := List Call → Call → error

/-- An effectful computation: from the requests made so far to a result and the
requests made once it has finished. -/
abbrev Eff (α : Type) := List Call → α × List Call

/-- Issue one request: the world answers it and it is appended to the trace. -/
def perform (w : World) (c : Call) : Eff error :=
  fun tr => (w tr c, tr ++ [c])

/-- The call `os.MkdirAll(path, perm)`. -/
def os.MkdirAll (w : World) (path : String) (perm : Nat) : Eff error :=
  perform w (.MkdirAll path perm)

/-- The call `os.Chdir(dir)`. -/
def os.Chdir (w : World) (dir : String) : Eff error :=
  perform w (.Chdir dir)

/-- The call `utils.Run(command, args...)`: run an external command in the
working directory of the process. -/
def utils.Run (w : World) (command : String) (args : List String) : Eff error :=
  perform w (.Exec none command args)

/-- The call `utils.RunInDir(dir, command, args...)`: run an external command
with its working directory set to `dir`. -/
def utils.RunInDir (w : World) (dir : String) (command : String) (args : List String) :
    Eff error :=
  perform w (.Exec (some dir) command args)

/-! ## `path/filepath` on Unix (`Separator = '/'`, no volume names)

The standard-library functions the backends call on paths.  A path is read as
its sequence of characters; the separator is a single byte in UTF-8, so cutting
a well-formed path at a separator by characters or by bytes is the same cut. -/

/-- The predicate `os.IsPathSeparator`. -/
def os.IsPathSeparator (c : Char) : Bool := c == '/'

/-- The scan of `filepath.Split` over the reversed path: drop the trailing
characters that are not separators; what is left (reversed back) is the
directory part, what was dropped is the file part. -/
def filepath.splitRev : List Char → List Char → List Char × List Char
  | [], file => ([], file)
  | c :: rest, file =>
    if os.IsPathSeparator c then ((c :: rest).reverse, file)
    else filepath.splitRev rest (c :: file)

/-- The function `filepath.Split(path)`: the path is cut right after its last
separator into a directory part and a file part; without a separator the
directory part is empty. -/
def filepath.Split (path : String) : String × String :=
  let r := filepath.splitRev path.data.reverse []
  (String.mk r.1, String.mk r.2)

/-- The step `out.w--; for out.w > dotdot && !os.IsPathSeparator(out.index(out.w)) { out.w-- }`
of `filepath.Clean`, on the output buffer kept newest character first. -/
def filepath.backtrack (dotdot : Nat) : List Char → List Char
  | [] => []
  | c :: rest =>
    if rest.length > dotdot && !os.IsPathSeparator c then filepath.backtrack dotdot rest
    else rest

/-- Whether the next character to read is a separator. -/
def filepath.atSeparator : List Char → Bool
  | [] => false
  | c :: _ => os.IsPathSeparator c

/-- The main loop of `filepath.Clean`.  `p` is the part of the path still to read,
`out` the output buffer (newest character first) and `dotdot` the buffer index
below which a `..` element may not backtrack.  One unit of fuel is one
iteration of the loop, each of which reads at least one character. -/
def filepath.cleanLoop (rooted : Bool) : Nat → List Char → List Char → Nat → List Char
  | 0, _, out, _ => out
  | fuel + 1, p, out, dotdot =>
    match p with
    | [] => out
    | c :: rest =>
      if os.IsPathSeparator c then
        filepath.cleanLoop rooted fuel rest out dotdot
      else if c == '.' && (rest.isEmpty || filepath.atSeparator rest) then
        filepath.cleanLoop rooted fuel rest out dotdot
      else if c == '.' && rest.head? == some '.'
          && (rest.tail.isEmpty || filepath.atSeparator rest.tail) then
        if out.length > dotdot then
          filepath.cleanLoop rooted fuel rest.tail (filepath.backtrack dotdot out) dotdot
        else if !rooted then
          let out1 := if out.length > 0 then '/' :: out else out
          let out2 := '.' :: '.' :: out1
          filepath.cleanLoop rooted fuel rest.tail out2 out2.length
        else
          filepath.cleanLoop rooted fuel rest.tail out dotdot
      else
        let out1 :=
          if (rooted && out.length != 1) || (!rooted && out.length != 0) then '/' :: out
          else out
        let elem := (c :: rest).takeWhile (fun x => !os.IsPathSeparator x)
        filepath.cleanLoop rooted fuel ((c :: rest).dropWhile (fun x => !os.IsPathSeparator x))
          (elem.reverse ++ out1) dotdot

/-- The function `filepath.Clean(path)`: the shortest path name equivalent to
`path` by purely lexical processing. -/
def filepath.Clean (path : String) : String :=
  match path.data with
  | [] => "."
  | c :: rest =>
    let rooted := os.IsPathSeparator c
    let out :=
      if rooted then filepath.cleanLoop true (rest.length + 1) rest ['/'] 1
      else filepath.cleanLoop false (rest.length + 2) (c :: rest) [] 0
    if out.length == 0 then "." else String.mk out.reverse

/-- The function `strings.Join(elems, sep)`. -/
def strings.Join (elems : List String) (sep : String) : String :=
  sep.intercalate elems

/-- The function `filepath.Join(elem...)`: the elements from the first non-empty
one on are joined with the separator and the result is cleaned; if every
element is empty the result is the empty string. -/
def filepath.Join : List String → String
  | [] => ""
  | e :: rest =>
    if e ≠ "" then filepath.Clean (strings.Join (e :: rest) "/")
    else filepath.Join rest

/-! ## The backends -/

/-- A VCSBackend represents a VCS backend: `Clone` clones a remote repository to
a local path, `Update` updates a cloned local repository. -/
structure VCSBackend where
  Clone : World → URL → String → Bool → Eff error
  Update : World → String → Eff error

/-- The value behind `GitBackend`. -/
def GitBackend : VCSBackend where
  Clone := fun w remote localPath shallow tr =>
    let dir := (filepath.Split localPath).1
    match os.MkdirAll w dir 0o755 tr with
    | (some err, tr1) => (some err, tr1)
    | (none, tr1) =>
      let args := ["clone"]
      let args := if shallow then args ++ ["--depth", "1"] else args
      let args := args ++ [remote.String, localPath]
      utils.Run w "git" args tr1
  Update := fun w localPath tr =>
    utils.RunInDir w localPath "git" ["pull", "--ff-only"] tr

/-- The value behind `SubversionBackend`. -/
def SubversionBackend : VCSBackend where
  Clone := fun w remote localPath shallow tr =>
    let dir := (filepath.Split localPath).1
    match os.MkdirAll w dir 0o755 tr with
    | (some err, tr1) => (some err, tr1)
    | (none, tr1) =>
      let args := ["checkout"]
      let args := if shallow then args ++ ["--depth", "1"] else args
      let args := args ++ [remote.String, localPath]
      utils.Run w "svn" args tr1
  Update := fun w localPath tr =>
    utils.RunInDir w localPath "svn" ["update"] tr

/-- The value behind `GitsvnBackend`; git-svn seems not supporting shallow clone
currently, so the flag is ignored. -/
def GitsvnBackend : VCSBackend where
  Clone := fun w remote localPath _ignoredShallow tr =>
    let dir := (filepath.Split localPath).1
    match os.MkdirAll w dir 0o755 tr with
    | (some err, tr1) => (some err, tr1)
    | (none, tr1) =>
      utils.Run w "git" ["svn", "clone", remote.String, localPath] tr1
  Update := fun w localPath tr =>
    utils.RunInDir w localPath "git" ["svn", "rebase"] tr

/-- The value behind `MercurialBackend`; Mercurial seems not supporting shallow
clone currently, so the flag is ignored. -/
def MercurialBackend : VCSBackend where
  Clone := fun w remote localPath _ignoredShallow tr =>
    let dir := (filepath.Split localPath).1
    match os.MkdirAll w dir 0o755 tr with
    | (some err, tr1) => (some err, tr1)
    | (none, tr1) =>
      utils.Run w "hg" ["clone", remote.String, localPath] tr1
  Update := fun w localPath tr =>
    utils.RunInDir w localPath "hg" ["pull", "--update"] tr

/-- The value behind `DarcsBackend`. -/
def DarcsBackend : VCSBackend where
  Clone := fun w remote localPath shallow tr =>
    let dir := (filepath.Split localPath).1
    match os.MkdirAll w dir 0o755 tr with
    | (some err, tr1) => (some err, tr1)
    | (none, tr1) =>
      let args := ["get"]
      let args := if shallow then args ++ ["--lazy"] else args
      let args := args ++ [remote.String, localPath]
      utils.Run w "darcs" args tr1
  Update := fun w localPath tr =>
    utils.RunInDir w localPath "darcs" ["pull"] tr

/-- The value behind `CvsDummyBackend`. -/
def CvsDummyBackend : VCSBackend where
  Clone := fun _w _remote _localPath _ignoredShallow tr =>
    (errors.New "CVS clone is not supported", tr)
  Update := fun _w _localPath tr =>
    (errors.New "CVS update is not supported", tr)

/-- The constant `fossilRepoName`. -/
def fossilRepoName : String := ".fossil"

/-- The value behind `FossilBackend`. -/
def FossilBackend : VCSBackend where
  Clone := fun w remote localPath _shallow tr =>
    let dir := (filepath.Split localPath).1
    match os.MkdirAll w dir 0o755 tr with
    | (some err, tr1) => (some err, tr1)
    | (none, tr1) =>
      match utils.Run w "fossil"
          ["clone", remote.String, filepath.Join [dir, fossilRepoName]] tr1 with
      | (some err, tr2) => (some err, tr2)
      | (none, tr2) =>
        match os.Chdir w dir tr2 with
        | (some err, tr3) => (some err, tr3)
        | (none, tr3) =>
          utils.Run w "fossile" ["open", fossilRepoName] tr3
  Update := fun w localPath tr =>
    utils.RunInDir w localPath "fossil" ["update"] tr

/-! ## The registry -/

/-- The pointers held by the seven package-level backend variables; two of
them are the same backend instance exactly when they are the same pointer. -/
inductive BackendPtr where
  | GitBackend
  | SubversionBackend
  | GitsvnBackend
  | MercurialBackend
  | DarcsBackend
  | CvsDummyBackend
  | FossilBackend
deriving DecidableEq, Repr

/-- The backend value a pointer points to. -/
def BackendPtr.deref : BackendPtr → VCSBackend
  | .GitBackend => Vcs.GitBackend
  | .SubversionBackend => Vcs.SubversionBackend
  | .GitsvnBackend => Vcs.GitsvnBackend
  | .MercurialBackend => Vcs.MercurialBackend
  | .DarcsBackend => Vcs.DarcsBackend
  | .CvsDummyBackend => Vcs.CvsDummyBackend
  | .FossilBackend => Vcs.FossilBackend

/-- The map literal `vcsRegistry`, as its list of key/value entries. -/
def vcsRegistry : List (String × BackendPtr) :=
  [ ("git", .GitBackend),
    ("github", .GitBackend),
    ("svn", .SubversionBackend),
    ("subversion", .SubversionBackend),
    ("git-svn", .GitsvnBackend),
    ("hg", .MercurialBackend),
    ("mercurial", .MercurialBackend),
    ("darcs", .DarcsBackend),
    ("fossil", .FossilBackend) ]

/-- The map index expression `vcsRegistry[identifier]`: the pointer stored under
the key, or `none` (the nil pointer) when the key is absent. -/
def resolve (identifier : String) : Option BackendPtr :=
  vcsRegistry.lookup identifier

/-! ## Vocabulary of the statements -/

/-- The requests issued by a computation started after the requests `tr`. -/
def issued {α : Type} (tr : List Call) (r : α × List Call) : List Call :=
  r.2.drop tr.length

/-- The shape shared by the one-step `Clone` functions: create the directory,
give up on failure, otherwise run one external command. -/
def prepareAndRun (w : World) (dir tool : String) (args : List String) : Eff error :=
  fun tr =>
    match os.MkdirAll w dir 0o755 tr with
    | (some err, tr1) => (some err, tr1)
    | (none, tr1) => utils.Run w tool args tr1

/-- Statement: `update` is one external invocation of `tool` with arguments
`args`, run with working directory `localPath`, whose result is returned as
is; it is the only request `update` issues (so no directory is created and
the working directory of the process is not changed), and `update` succeeds
exactly when the tool does. -/
def UpdateRuns (update : World → String → Eff error) (tool : String) (args : List String) :
    Prop :=
  ∀ (w : World) (localPath : String) (tr : List Call),
    update w localPath tr =
        (w tr (.Exec (some localPath) tool args), tr ++ [.Exec (some localPath) tool args]) ∧
      issued tr (update w localPath tr) = [.Exec (some localPath) tool args] ∧
      (issued tr (update w localPath tr)).filter
        (fun c => c.isMkdirAll || c.isChdir) = [] ∧
      ((update w localPath tr).1 = none ↔ w tr (.Exec (some localPath) tool args) = none)

/-- A world in which every request succeeds. -/
def allSucceed : World := fun _ _ => none

/-- A world in which the request `bad` fails with `msg` whenever it is made and
every other request succeeds. -/
def failOn (bad : Call) (msg : String) : World :=
  fun _ c => if c = bad then some msg else none

/-! ## Theorems -/

/-- The characters dropped by the scan of `filepath.Split` are put back in order. -/
theorem filepath.splitRev_append (l file : List Char) :
    (filepath.splitRev l file).1 ++ (filepath.splitRev l file).2 = l.reverse ++ file := by
  induction l generalizing file with
  | nil => simp [filepath.splitRev]
  | cons c rest ih =>
    unfold filepath.splitRev
    split
    · simp
    · rw [ih]
      simp

/-- The two parts returned by `filepath.Split` concatenate to the path: the
directory part is a prefix of the path. -/
theorem filepath.Split_append (path : String) :
    (filepath.Split path).1 ++ (filepath.Split path).2 = path := by
  have h := filepath.splitRev_append path.data.reverse []
  simp only [List.reverse_reverse, List.append_nil] at h
  apply String.ext
  simp only [filepath.Split, String.data_append]
  exact h

/-- When the directory cannot be created nothing else is requested. -/
theorem prepareAndRun_fail (w : World) (dir tool : String) (args : List String)
    (tr : List Call) (err : String) (h : w tr (.MkdirAll dir 0o755) = some err) :
    prepareAndRun w dir tool args tr = (some err, tr ++ [.MkdirAll dir 0o755]) := by
  simp [prepareAndRun, os.MkdirAll, perform, h]

/-- When the directory is created the command is run once and decides the result. -/
theorem prepareAndRun_ok (w : World) (dir tool : String) (args : List String)
    (tr : List Call) (h : w tr (.MkdirAll dir 0o755) = none) :
    prepareAndRun w dir tool args tr =
      (w (tr ++ [.MkdirAll dir 0o755]) (.Exec none tool args),
        tr ++ [.MkdirAll dir 0o755, .Exec none tool args]) := by
  simp [prepareAndRun, os.MkdirAll, utils.Run, perform, h]

/-- Every way `FossilBackend.Clone` can run, by the answers of the world to its
four requests in turn. -/
theorem fossil_clone_cases (w : World) (remote : URL) (localPath : String) (shallow : Bool)
    (tr : List Call) :
    FossilBackend.Clone w remote localPath shallow tr =
      match w tr (.MkdirAll (filepath.Split localPath).1 0o755) with
      | some err => (some err, tr ++ [.MkdirAll (filepath.Split localPath).1 0o755])
      | none =>
        match w (tr ++ [.MkdirAll (filepath.Split localPath).1 0o755])
            (.Exec none "fossil" ["clone", remote.String,
              filepath.Join [(filepath.Split localPath).1, fossilRepoName]]) with
        | some err =>
          (some err, tr ++ [.MkdirAll (filepath.Split localPath).1 0o755,
            .Exec none "fossil" ["clone", remote.String,
              filepath.Join [(filepath.Split localPath).1, fossilRepoName]]])
        | none =>
          match w (tr ++ [.MkdirAll (filepath.Split localPath).1 0o755,
              .Exec none "fossil" ["clone", remote.String,
                filepath.Join [(filepath.Split localPath).1, fossilRepoName]]])
              (.Chdir (filepath.Split localPath).1) with
          | some err =>
            (some err, tr ++ [.MkdirAll (filepath.Split localPath).1 0o755,
              .Exec none "fossil" ["clone", remote.String,
                filepath.Join [(filepath.Split localPath).1, fossilRepoName]],
              .Chdir (filepath.Split localPath).1])
          | none =>
            (w (tr ++ [.MkdirAll (filepath.Split localPath).1 0o755,
                .Exec none "fossil" ["clone", remote.String,
                  filepath.Join [(filepath.Split localPath).1, fossilRepoName]],
                .Chdir (filepath.Split localPath).1])
              (.Exec none "fossile" ["open", fossilRepoName]),
              tr ++ [.MkdirAll (filepath.Split localPath).1 0o755,
                .Exec none "fossil" ["clone", remote.String,
                  filepath.Join [(filepath.Split localPath).1, fossilRepoName]],
                .Chdir (filepath.Split localPath).1,
                .Exec none "fossile" ["open", fossilRepoName]]) := by
  simp only [FossilBackend, os.MkdirAll, utils.Run, os.Chdir, perform]
  cases h1 : w tr (.MkdirAll (filepath.Split localPath).1 0o755) with
  | some err => rfl
  | none =>
    simp only [List.append_assoc, List.cons_append, List.nil_append]
    cases h2 : w (tr ++ [.MkdirAll (filepath.Split localPath).1 0o755])
        (.Exec none "fossil" ["clone", remote.String,
          filepath.Join [(filepath.Split localPath).1, fossilRepoName]]) with
    | some err => rfl
    | none =>
      simp only [List.append_assoc, List.cons_append, List.nil_append]
      cases h3 : w (tr ++ [.MkdirAll (filepath.Split localPath).1 0o755,
          .Exec none "fossil" ["clone", remote.String,
            filepath.Join [(filepath.Split localPath).1, fossilRepoName]]])
          (.Chdir (filepath.Split localPath).1) with
      | some err => rfl
      | none => simp only [List.append_assoc, List.cons_append, List.nil_append]

/-- The requests issued by a computation that appended `new` to the trace. -/
theorem issued_append {α : Type} (tr new : List Call) (a : α) :
    issued tr (a, tr ++ new) = new := by
  simp [issued]

/-- One step of a lookup in a list of entries keyed by strings. -/
theorem lookup_cons_ite {β : Type} (a k : String) (v : β) (es : List (String × β)) :
    List.lookup a ((k, v) :: es) = if a = k then some v else List.lookup a es := by
  rw [List.lookup_cons]
  by_cases h : a = k
  · subst h
    simp
  · have hb : (a == k) = false := by simpa using h
    rw [hb]
    simp [h]

/-- Lookup in the registry, spelled out key by key in the order of the literal. -/
theorem resolve_unfold (identifier : String) :
    resolve identifier =
      if identifier = "git" then some .GitBackend
      else if identifier = "github" then some .GitBackend
      else if identifier = "svn" then some .SubversionBackend
      else if identifier = "subversion" then some .SubversionBackend
      else if identifier = "git-svn" then some .GitsvnBackend
      else if identifier = "hg" then some .MercurialBackend
      else if identifier = "mercurial" then some .MercurialBackend
      else if identifier = "darcs" then some .DarcsBackend
      else if identifier = "fossil" then some .FossilBackend
      else none := by
  simp only [resolve, vcsRegistry, lookup_cons_ite, List.lookup_nil]

/-- The identifiers under which a given pointer is registered. -/
theorem resolve_some_iff (a : String) (p : BackendPtr) :
    resolve a = some p ↔
      (a ∈ ["git", "github"] ∧ p = .GitBackend) ∨
      (a ∈ ["svn", "subversion"] ∧ p = .SubversionBackend) ∨
      (a ∈ ["hg", "mercurial"] ∧ p = .MercurialBackend) ∨
      (a = "git-svn" ∧ p = .GitsvnBackend) ∨
      (a = "darcs" ∧ p = .DarcsBackend) ∨
      (a = "fossil" ∧ p = .FossilBackend) := by
  rw [resolve_unfold]
  simp only [List.mem_cons, List.mem_singleton, List.not_mem_nil, or_false]
  constructor
  · intro h
    repeat' split at h
    all_goals simp_all
  · intro h
    rcases h with h | h | h | h | h | h
    all_goals rcases h with ⟨ha, rfl⟩
    all_goals first
      | (subst ha; decide)
      | (rcases ha with rfl | rfl <;> decide)

/-- Distinct pointers point to distinct backend values: their `Update` functions
already issue different requests in a world where everything succeeds. -/
theorem deref_injective (p q : BackendPtr) (h : p.deref = q.deref) : p = q := by
  have key : (p.deref.Update allSucceed "d" []) = (q.deref.Update allSucceed "d" []) := by
    rw [h]
  revert key
  cases p <;> cases q <;> first | (intro _; rfl) | decide

/-- C1: lookup in `vcsRegistry` is exactly the alias table.  Each listed
identifier resolves to the backend of its logical system, aliases to the same
instance; an identifier resolves to nothing exactly when it is not one of the
nine listed (so `nonexistent-vcs`, `cvs` and `Git` resolve to nothing); two
listed identifiers resolve to the same instance only if they name the same
logical system, the six instances being pairwise distinct pointers to pairwise
distinct backend values. -/
theorem resolve_is_alias_table :
    (resolve "git" = some .GitBackend ∧ resolve "github" = some .GitBackend) ∧
    (resolve "svn" = some .SubversionBackend ∧
      resolve "subversion" = some .SubversionBackend) ∧
    (resolve "hg" = some .MercurialBackend ∧ resolve "mercurial" = some .MercurialBackend) ∧
    resolve "git-svn" = some .GitsvnBackend ∧
    resolve "darcs" = some .DarcsBackend ∧
    resolve "fossil" = some .FossilBackend ∧
    (∀ identifier : String, resolve identifier = none ↔
      identifier ∉ ["git", "github", "svn", "subversion", "git-svn", "hg", "mercurial",
        "darcs", "fossil"]) ∧
    (resolve "nonexistent-vcs" = none ∧ resolve "cvs" = none ∧ resolve "Git" = none) ∧
    (∀ (a b : String) (p : BackendPtr), resolve a = some p ∧ resolve b = some p ↔
      (a ∈ ["git", "github"] ∧ b ∈ ["git", "github"] ∧ p = .GitBackend) ∨
      (a ∈ ["svn", "subversion"] ∧ b ∈ ["svn", "subversion"] ∧ p = .SubversionBackend) ∨
      (a ∈ ["hg", "mercurial"] ∧ b ∈ ["hg", "mercurial"] ∧ p = .MercurialBackend) ∨
      (a = "git-svn" ∧ b = "git-svn" ∧ p = .GitsvnBackend) ∨
      (a = "darcs" ∧ b = "darcs" ∧ p = .DarcsBackend) ∨
      (a = "fossil" ∧ b = "fossil" ∧ p = .FossilBackend)) ∧
    (∀ p q : BackendPtr, p.deref = q.deref ↔ p = q) := by
  refine ⟨⟨by decide, by decide⟩, ⟨by decide, by decide⟩, ⟨by decide, by decide⟩,
    by decide, by decide, by decide, ?_, ⟨by decide, by decide, by decide⟩, ?_, ?_⟩
  · intro identifier
    rw [resolve_unfold]
    simp only [List.mem_cons, List.mem_singleton, List.not_mem_nil, or_false, not_or]
    constructor
    · intro h
      repeat' split at h
      all_goals simp_all
    · rintro ⟨h1, h2, h3, h4, h5, h6, h7, h8, h9⟩
      simp [h1, h2, h3, h4, h5, h6, h7, h8, h9]
  · intro a b p
    rw [resolve_some_iff, resolve_some_iff]
    constructor
    · rintro ⟨ha, hb⟩
      rcases ha with ha | ha | ha | ha | ha | ha
      all_goals rcases ha with ⟨ha, rfl⟩
      all_goals simp_all
    · intro h
      rcases h with h | h | h | h | h | h
      all_goals rcases h with ⟨ha, hb, rfl⟩
      all_goals simp_all
  · intro p q
    exact ⟨deref_injective p q, fun h => by rw [h]⟩

/-- C2: when preparing the directory succeeds, `GitBackend.Clone` makes exactly
one external invocation, of the tool `git`, with arguments
`clone --depth 1 <remote> <local>` if `shallow` and `clone <remote> <local>`
otherwise, and returns its result: the two words `--depth 1` are inserted
between `clone` and the remote exactly when `shallow` is true. -/
theorem git_clone_invocation (w : World) (remote : URL) (localPath : String)
    (shallow : Bool) (tr : List Call)
    (hdir : w tr (.MkdirAll (filepath.Split localPath).1 0o755) = none) :
    let mk := Call.MkdirAll (filepath.Split localPath).1 0o755
    let args := "clone" :: ((if shallow then ["--depth", "1"] else []) ++
      [remote.String, localPath])
    GitBackend.Clone w remote localPath shallow tr =
        (w (tr ++ [mk]) (.Exec none "git" args), tr ++ [mk, .Exec none "git" args]) ∧
      (issued tr (GitBackend.Clone w remote localPath shallow tr)).filter Call.isExec =
        [.Exec none "git" args] ∧
      (shallow = true → args = ["clone", "--depth", "1", remote.String, localPath]) ∧
      (shallow = false → args = ["clone", remote.String, localPath]) := by
  intro mk args
  have hrun : GitBackend.Clone w remote localPath shallow tr =
      (w (tr ++ [mk]) (.Exec none "git" args), tr ++ [mk, .Exec none "git" args]) := by
    cases shallow <;>
      simp [GitBackend, os.MkdirAll, utils.Run, perform, hdir, mk, args]
  refine ⟨hrun, ?_, ?_, ?_⟩
  · rw [hrun]
    simp [issued, Call.isExec, mk]
  · intro h
    simp [args, h]
  · intro h
    simp [args, h]

/-- Witness for C2: a shallow and a full clone in a world where everything
succeeds. -/
theorem git_clone_invocation_witness :
    (GitBackend.Clone allSucceed ⟨"https://github.com/motemen/ghq"⟩ "/r/ghq" true [] =
        (none, [.MkdirAll "/r/" 0o755,
          .Exec none "git" ["clone", "--depth", "1", "https://github.com/motemen/ghq",
            "/r/ghq"]])) ∧
    (GitBackend.Clone allSucceed ⟨"https://github.com/motemen/ghq"⟩ "/r/ghq" false [] =
        (none, [.MkdirAll "/r/" 0o755,
          .Exec none "git" ["clone", "https://github.com/motemen/ghq", "/r/ghq"]])) ∧
    ("clone" :: ((if true = true then ["--depth", "1"] else []) ++
        [URL.String ⟨"https://github.com/motemen/ghq"⟩, "/r/ghq"]) =
      ["clone", "--depth", "1", URL.String ⟨"https://github.com/motemen/ghq"⟩, "/r/ghq"]) ∧
    ("clone" :: ((if false = true then ["--depth", "1"] else []) ++
        [URL.String ⟨"https://github.com/motemen/ghq"⟩, "/r/ghq"]) =
      ["clone", URL.String ⟨"https://github.com/motemen/ghq"⟩, "/r/ghq"]) :=
  ⟨(git_clone_invocation allSucceed ⟨"https://github.com/motemen/ghq"⟩ "/r/ghq" true []
      rfl).1,
    (git_clone_invocation allSucceed ⟨"https://github.com/motemen/ghq"⟩ "/r/ghq" false []
      rfl).1,
    (git_clone_invocation allSucceed ⟨"https://github.com/motemen/ghq"⟩ "/r/ghq" true []
      rfl).2.2.1 rfl,
    (git_clone_invocation allSucceed ⟨"https://github.com/motemen/ghq"⟩ "/r/ghq" false []
      rfl).2.2.2 rfl⟩

/-- C3: the Mercurial, Git-over-Subversion and Fossil backends ignore the shallow
flag: under any behaviour of the filesystem and process runner and after any
history, `Clone` with `shallow = true` and with `shallow = false` issue the
same requests in the same order and return the same result. -/
theorem shallow_ignored (w : World) (remote : URL) (localPath : String) (tr : List Call) :
    MercurialBackend.Clone w remote localPath true tr =
        MercurialBackend.Clone w remote localPath false tr ∧
      GitsvnBackend.Clone w remote localPath true tr =
        GitsvnBackend.Clone w remote localPath false tr ∧
      FossilBackend.Clone w remote localPath true tr =
        FossilBackend.Clone w remote localPath false tr :=
  ⟨rfl, rfl, rfl⟩

/-- C4: `CvsDummyBackend.Clone` always returns the error `CVS clone is not
supported` and `CvsDummyBackend.Update` the error `CVS update is not
supported`; neither ever succeeds and neither issues any request (no external
invocation, no directory creation): the trace is left as it was. -/
theorem cvs_unsupported (w : World) (remote : URL) (localPath : String) (shallow : Bool)
    (tr : List Call) :
    CvsDummyBackend.Clone w remote localPath shallow tr =
        (some "CVS clone is not supported", tr) ∧
      CvsDummyBackend.Update w localPath tr = (some "CVS update is not supported", tr) ∧
      (CvsDummyBackend.Clone w remote localPath shallow tr).1 ≠ none ∧
      (CvsDummyBackend.Update w localPath tr).1 ≠ none ∧
      issued tr (CvsDummyBackend.Clone w remote localPath shallow tr) = [] ∧
      issued tr (CvsDummyBackend.Update w localPath tr) = [] := by
  simp [CvsDummyBackend, errors.New, issued]

/-- C6: for each of the six real backends `Update(local)` makes exactly one
external invocation, with working directory `local`, of the tool and arguments
of the policy table, and returns exactly its result, so that it succeeds if and
only if the tool does; it creates no directory and does not change the working
directory of the process. -/
theorem update_runs_in_local :
    UpdateRuns GitBackend.Update "git" ["pull", "--ff-only"] ∧
      UpdateRuns SubversionBackend.Update "svn" ["update"] ∧
      UpdateRuns GitsvnBackend.Update "git" ["svn", "rebase"] ∧
      UpdateRuns MercurialBackend.Update "hg" ["pull", "--update"] ∧
      UpdateRuns DarcsBackend.Update "darcs" ["pull"] ∧
      UpdateRuns FossilBackend.Update "fossil" ["update"] := by
  refine ⟨?_, ?_, ?_, ?_, ?_, ?_⟩ <;> intro w localPath tr
  · simp [GitBackend, utils.RunInDir, perform, issued, Call.isMkdirAll, Call.isChdir]
  · simp [SubversionBackend, utils.RunInDir, perform, issued, Call.isMkdirAll, Call.isChdir]
  · simp [GitsvnBackend, utils.RunInDir, perform, issued, Call.isMkdirAll, Call.isChdir]
  · simp [MercurialBackend, utils.RunInDir, perform, issued, Call.isMkdirAll, Call.isChdir]
  · simp [DarcsBackend, utils.RunInDir, perform, issued, Call.isMkdirAll, Call.isChdir]
  · simp [FossilBackend, utils.RunInDir, perform, issued, Call.isMkdirAll, Call.isChdir]

/-- C7: for the Git, Subversion, Git-over-Subversion, Mercurial and Darcs
backends `Clone` first requests `os.MkdirAll(dir, 0755)` on the directory part
of `local` (the prefix of `local` returned by `filepath.Split`).  If that fails
`Clone` returns its error and invokes no tool; if it succeeds `Clone` makes
exactly one external invocation, after the directory request, and returns its
result.  So `Clone` succeeds if and only if directory preparation and the
external tool both succeed. -/
theorem clone_prepares_directory (b : VCSBackend)
    (hb : b ∈ [GitBackend, SubversionBackend, GitsvnBackend, MercurialBackend, DarcsBackend])
    (remote : URL) (localPath : String) (shallow : Bool) :
    let dir := (filepath.Split localPath).1
    let mk := Call.MkdirAll dir 0o755
    dir ++ (filepath.Split localPath).2 = localPath ∧
    ∃ (tool : String) (args : List String), ∀ (w : World) (tr : List Call),
      (∀ err : String, w tr mk = some err →
        b.Clone w remote localPath shallow tr = (some err, tr ++ [mk]) ∧
        (issued tr (b.Clone w remote localPath shallow tr)).filter Call.isExec = []) ∧
      (w tr mk = none →
        b.Clone w remote localPath shallow tr =
          (w (tr ++ [mk]) (.Exec none tool args), tr ++ [mk, .Exec none tool args]) ∧
        (issued tr (b.Clone w remote localPath shallow tr)).filter Call.isExec =
          [.Exec none tool args]) ∧
      ((b.Clone w remote localPath shallow tr).1 = none ↔
        w tr mk = none ∧ w (tr ++ [mk]) (.Exec none tool args) = none) := by
  intro dir mk
  refine ⟨filepath.Split_append localPath, ?_⟩
  have shape : ∃ (tool : String) (args : List String), ∀ (w : World),
      b.Clone w remote localPath shallow = prepareAndRun w dir tool args := by
    simp only [List.mem_cons, List.mem_singleton, List.not_mem_nil, or_false] at hb
    rcases hb with rfl | rfl | rfl | rfl | rfl
    · exact ⟨"git", "clone" :: ((if shallow then ["--depth", "1"] else []) ++
        [remote.String, localPath]), fun w => by cases shallow <;> rfl⟩
    · exact ⟨"svn", "checkout" :: ((if shallow then ["--depth", "1"] else []) ++
        [remote.String, localPath]), fun w => by cases shallow <;> rfl⟩
    · exact ⟨"git", ["svn", "clone", remote.String, localPath], fun w => rfl⟩
    · exact ⟨"hg", ["clone", remote.String, localPath], fun w => rfl⟩
    · exact ⟨"darcs", "get" :: ((if shallow then ["--lazy"] else []) ++
        [remote.String, localPath]), fun w => by cases shallow <;> rfl⟩
  obtain ⟨tool, args, hshape⟩ := shape
  refine ⟨tool, args, fun w tr => ⟨?_, ?_, ?_⟩⟩
  · intro err herr
    rw [hshape, prepareAndRun_fail w dir tool args tr err herr, issued_append]
    simp [Call.isExec, mk]
  · intro hok
    rw [hshape, prepareAndRun_ok w dir tool args tr hok, issued_append]
    simp [Call.isExec, mk]
  · rw [hshape]
    cases hmk : w tr (.MkdirAll dir 0o755) with
    | none => rw [prepareAndRun_ok w dir tool args tr hmk]; simp [mk, hmk]
    | some err => rw [prepareAndRun_fail w dir tool args tr err hmk]; simp [mk, hmk]

/-- Witness for C7: `GitBackend.Clone` of `/r/ghq`, once in a world where
creating `/r/` fails and once in a world where everything succeeds. -/
theorem clone_prepares_directory_witness :
    GitBackend ∈ [GitBackend, SubversionBackend, GitsvnBackend, MercurialBackend,
        DarcsBackend] ∧
      ∃ (tool : String) (args : List String),
        GitBackend.Clone (failOn (.MkdirAll "/r/" 0o755) "permission denied")
            ⟨"https://github.com/motemen/ghq"⟩ "/r/ghq" true [] =
          (some "permission denied", [.MkdirAll "/r/" 0o755]) ∧
        GitBackend.Clone allSucceed ⟨"https://github.com/motemen/ghq"⟩ "/r/ghq" true [] =
          (none, [.MkdirAll "/r/" 0o755, .Exec none tool args]) := by
  have hb : GitBackend ∈ [GitBackend, SubversionBackend, GitsvnBackend, MercurialBackend,
      DarcsBackend] := by simp
  obtain ⟨_, tool, args, h⟩ :=
    clone_prepares_directory GitBackend hb ⟨"https://github.com/motemen/ghq"⟩ "/r/ghq" true
  exact ⟨hb, tool, args,
    ((h (failOn (.MkdirAll "/r/" 0o755) "permission denied") []).1 "permission denied"
      (by decide)).1,
    ((h allSucceed []).2.1 rfl).1⟩

/-- C8: when preparing the directory succeeds, `SubversionBackend.Clone` invokes
`svn` with `checkout --depth 1 <remote> <local>` if `shallow` and
`checkout <remote> <local>` otherwise, and `DarcsBackend.Clone` invokes `darcs`
with `get --lazy <remote> <local>` if `shallow` and `get <remote> <local>`
otherwise: the flag words are inserted after the subcommand exactly when
`shallow` is true, and the remote and the local path are always the last two
arguments, in that order. -/
theorem svn_darcs_clone_invocation (w : World) (remote : URL) (localPath : String)
    (shallow : Bool) (tr : List Call)
    (hdir : w tr (.MkdirAll (filepath.Split localPath).1 0o755) = none) :
    let mk := Call.MkdirAll (filepath.Split localPath).1 0o755
    let svnArgs := "checkout" :: ((if shallow then ["--depth", "1"] else []) ++
      [remote.String, localPath])
    let darcsArgs := "get" :: ((if shallow then ["--lazy"] else []) ++
      [remote.String, localPath])
    (SubversionBackend.Clone w remote localPath shallow tr =
        (w (tr ++ [mk]) (.Exec none "svn" svnArgs), tr ++ [mk, .Exec none "svn" svnArgs]) ∧
      DarcsBackend.Clone w remote localPath shallow tr =
        (w (tr ++ [mk]) (.Exec none "darcs" darcsArgs),
          tr ++ [mk, .Exec none "darcs" darcsArgs])) ∧
      (shallow = true →
        svnArgs = ["checkout", "--depth", "1", remote.String, localPath] ∧
        darcsArgs = ["get", "--lazy", remote.String, localPath]) ∧
      (shallow = false →
        svnArgs = ["checkout", remote.String, localPath] ∧
        darcsArgs = ["get", remote.String, localPath]) ∧
      svnArgs.drop (svnArgs.length - 2) = [remote.String, localPath] ∧
      darcsArgs.drop (darcsArgs.length - 2) = [remote.String, localPath] := by
  intro mk svnArgs darcsArgs
  refine ⟨⟨?_, ?_⟩, ?_, ?_, ?_, ?_⟩
  · cases shallow <;>
      simp [SubversionBackend, os.MkdirAll, utils.Run, perform, hdir, mk, svnArgs]
  · cases shallow <;>
      simp [DarcsBackend, os.MkdirAll, utils.Run, perform, hdir, mk, darcsArgs]
  · intro h
    simp [svnArgs, darcsArgs, h]
  · intro h
    simp [svnArgs, darcsArgs, h]
  · cases shallow <;> simp [svnArgs]
  · cases shallow <;> simp [darcsArgs]

/-- Witness for C8: shallow and full clones in a world where everything
succeeds. -/
theorem svn_darcs_clone_invocation_witness :
    (SubversionBackend.Clone allSucceed ⟨"svn://h/p"⟩ "/r/p" true [] =
        (none, [.MkdirAll "/r/" 0o755,
          .Exec none "svn" ["checkout", "--depth", "1", "svn://h/p", "/r/p"]])) ∧
    (DarcsBackend.Clone allSucceed ⟨"http://h/p"⟩ "/r/p" true [] =
        (none, [.MkdirAll "/r/" 0o755,
          .Exec none "darcs" ["get", "--lazy", "http://h/p", "/r/p"]])) ∧
    (SubversionBackend.Clone allSucceed ⟨"svn://h/p"⟩ "/r/p" false [] =
        (none, [.MkdirAll "/r/" 0o755,
          .Exec none "svn" ["checkout", "svn://h/p", "/r/p"]])) ∧
    (DarcsBackend.Clone allSucceed ⟨"http://h/p"⟩ "/r/p" false [] =
        (none, [.MkdirAll "/r/" 0o755, .Exec none "darcs" ["get", "http://h/p", "/r/p"]])) ∧
    ("get" :: ((if true = true then ["--lazy"] else []) ++ [URL.String ⟨"http://h/p"⟩, "/r/p"]) =
      ["get", "--lazy", URL.String ⟨"http://h/p"⟩, "/r/p"]) ∧
    ("checkout" :: ((if false = true then ["--depth", "1"] else []) ++
        [URL.String ⟨"svn://h/p"⟩, "/r/p"]) =
      ["checkout", URL.String ⟨"svn://h/p"⟩, "/r/p"]) :=
  ⟨(svn_darcs_clone_invocation allSucceed ⟨"svn://h/p"⟩ "/r/p" true [] rfl).1.1,
    (svn_darcs_clone_invocation allSucceed ⟨"http://h/p"⟩ "/r/p" true [] rfl).1.2,
    (svn_darcs_clone_invocation allSucceed ⟨"svn://h/p"⟩ "/r/p" false [] rfl).1.1,
    (svn_darcs_clone_invocation allSucceed ⟨"http://h/p"⟩ "/r/p" false [] rfl).1.2,
    ((svn_darcs_clone_invocation allSucceed ⟨"http://h/p"⟩ "/r/p" true [] rfl).2.1 rfl).2,
    ((svn_darcs_clone_invocation allSucceed ⟨"svn://h/p"⟩ "/r/p" false [] rfl).2.2.1 rfl).1⟩

/-- C5: `FossilBackend.Clone` makes two sequential external invocations: first
the repository creation `clone <remote> <file>`, where `<file>` is the fixed
name `.fossil` joined to the directory part of `local`, then the working-copy
`open .fossil`.  The invocations made are always an initial part of these two,
in this order; the second is made only if the first succeeded; if the first
fails the second is never made and `Clone` returns the error of the first; once
the second is made its result is the result of `Clone`, so `Clone` fails if it
fails; and `Clone` succeeds only if both were made and both succeeded. -/
theorem fossil_clone_two_steps (w : World) (remote : URL) (localPath : String)
    (shallow : Bool) (tr : List Call) :
    let dir := (filepath.Split localPath).1
    let mk := Call.MkdirAll dir 0o755
    let create := Call.Exec none "fossil"
      ["clone", remote.String, filepath.Join [dir, fossilRepoName]]
    let cd := Call.Chdir dir
    let opn := Call.Exec none "fossile" ["open", fossilRepoName]
    let r := FossilBackend.Clone w remote localPath shallow tr
    fossilRepoName = ".fossil" ∧
    ((issued tr r).filter Call.isExec = [] ∨ (issued tr r).filter Call.isExec = [create] ∨
      (issued tr r).filter Call.isExec = [create, opn]) ∧
    (opn ∈ issued tr r → w (tr ++ [mk]) create = none) ∧
    (∀ err : String, w tr mk = none → w (tr ++ [mk]) create = some err →
      r = (some err, tr ++ [mk, create])) ∧
    (w tr mk = none → w (tr ++ [mk]) create = none → w (tr ++ [mk, create]) cd = none →
      r = (w (tr ++ [mk, create, cd]) opn, tr ++ [mk, create, cd, opn])) ∧
    (r.1 = none →
      (issued tr r).filter Call.isExec = [create, opn] ∧
      w (tr ++ [mk]) create = none ∧ w (tr ++ [mk, create, cd]) opn = none) := by
  intro dir mk create cd opn r
  have hc : r =
      match w tr mk with
      | some err => (some err, tr ++ [mk])
      | none =>
        match w (tr ++ [mk]) create with
        | some err => (some err, tr ++ [mk, create])
        | none =>
          match w (tr ++ [mk, create]) cd with
          | some err => (some err, tr ++ [mk, create, cd])
          | none => (w (tr ++ [mk, create, cd]) opn, tr ++ [mk, create, cd, opn]) :=
    fossil_clone_cases w remote localPath shallow tr
  have hopn : opn.isExec = true ∧ create.isExec = true ∧ mk.isExec = false ∧
      cd.isExec = false ∧ opn ≠ mk ∧ opn ≠ create ∧ opn ≠ cd := by
    simp [opn, create, mk, cd, Call.isExec]
  obtain ⟨e1, e2, e3, e4, n1, n2, n3⟩ := hopn
  clear_value r opn cd create mk
  subst hc
  refine ⟨rfl, ?_, ?_, ?_, ?_, ?_⟩
  · rcases h1 : w tr mk with _ | err1
    · rcases h2 : w (tr ++ [mk]) create with _ | err2
      · rcases h3 : w (tr ++ [mk, create]) cd with _ | err3
        · simp [issued_append, List.filter_cons, e1, e2, e3, e4]
        · simp [issued_append, List.filter_cons, e1, e2, e3, e4]
      · simp [issued_append, List.filter_cons, e1, e2, e3, e4]
    · simp [issued_append, List.filter_cons, e1, e2, e3, e4]
  · rcases h1 : w tr mk with _ | err1
    · rcases h2 : w (tr ++ [mk]) create with _ | err2
      · simp
      · simp [issued_append, n1, n2]
    · simp [issued_append, n1]
  · intro err h1 h2
    simp [h1, h2]
  · intro h1 h2 h3
    simp [h1, h2, h3]
  · rcases h1 : w tr mk with _ | err1
    · rcases h2 : w (tr ++ [mk]) create with _ | err2
      · rcases h3 : w (tr ++ [mk, create]) cd with _ | err3
        · simp [issued_append, List.filter_cons, e1, e2, e3, e4]
        · simp
      · simp
    · simp

/-- Witness for C5: cloning to `/r/a`, once in a world where the repository
creation fails and once in a world where everything succeeds. -/
theorem fossil_clone_two_steps_witness :
    FossilBackend.Clone
        (failOn (.Exec none "fossil" ["clone", "https://h/x", "/r/.fossil"]) "exit status 1")
        ⟨"https://h/x"⟩ "/r/a" false [] =
      (some "exit status 1", [.MkdirAll "/r/" 0o755,
        .Exec none "fossil" ["clone", "https://h/x", "/r/.fossil"]]) ∧
    FossilBackend.Clone allSucceed ⟨"https://h/x"⟩ "/r/a" false [] =
      (none, [.MkdirAll "/r/" 0o755,
        .Exec none "fossil" ["clone", "https://h/x", "/r/.fossil"],
        .Chdir "/r/", .Exec none "fossile" ["open", ".fossil"]]) ∧
    allSucceed [.MkdirAll "/r/" 0o755]
        (.Exec none "fossil" ["clone", "https://h/x", "/r/.fossil"]) = none ∧
    (issued [] (FossilBackend.Clone allSucceed ⟨"https://h/x"⟩ "/r/a" false [])).filter
        Call.isExec =
      [.Exec none "fossil" ["clone", "https://h/x", "/r/.fossil"],
        .Exec none "fossile" ["open", ".fossil"]] :=
  ⟨(fossil_clone_two_steps
      (failOn (.Exec none "fossil" ["clone", "https://h/x", "/r/.fossil"]) "exit status 1")
      ⟨"https://h/x"⟩ "/r/a" false []).2.2.2.1 "exit status 1" (by decide) (by decide),
    (fossil_clone_two_steps allSucceed ⟨"https://h/x"⟩ "/r/a" false []).2.2.2.2.1 rfl rfl rfl,
    (fossil_clone_two_steps allSucceed ⟨"https://h/x"⟩ "/r/a" false []).2.2.1 (by decide),
    ((fossil_clone_two_steps allSucceed ⟨"https://h/x"⟩ "/r/a" false []).2.2.2.2.2
      (by decide)).1⟩

/-- C9: in `FossilBackend.Clone`, once directory preparation and the first
invocation have succeeded, `os.Chdir` is requested on the directory part of
`local` before the second step; if it fails `Clone` returns its error and makes
no second invocation; if it succeeds the second step invokes a tool named
`fossile` with arguments `open .fossil` and no working-directory override.
The first step and `FossilBackend.Update` invoke the tool named `fossil`, so
the two steps of one `Clone` name different tools. -/
theorem fossil_clone_chdir_and_tool (w : World) (remote : URL) (localPath : String)
    (shallow : Bool) (tr : List Call)
    (hdir : w tr (.MkdirAll (filepath.Split localPath).1 0o755) = none)
    (hcreate : w (tr ++ [.MkdirAll (filepath.Split localPath).1 0o755])
      (.Exec none "fossil" ["clone", remote.String,
        filepath.Join [(filepath.Split localPath).1, fossilRepoName]]) = none) :
    let dir := (filepath.Split localPath).1
    let mk := Call.MkdirAll dir 0o755
    let create := Call.Exec none "fossil"
      ["clone", remote.String, filepath.Join [dir, fossilRepoName]]
    let cd := Call.Chdir dir
    let opn := Call.Exec none "fossile" ["open", ".fossil"]
    let r := FossilBackend.Clone w remote localPath shallow tr
    (∀ err : String, w (tr ++ [mk, create]) cd = some err →
      r = (some err, tr ++ [mk, create, cd]) ∧
      (issued tr r).filter Call.isExec = [create]) ∧
    (w (tr ++ [mk, create]) cd = none →
      r = (w (tr ++ [mk, create, cd]) opn, tr ++ [mk, create, cd, opn])) ∧
    FossilBackend.Update w localPath tr =
      (w tr (.Exec (some localPath) "fossil" ["update"]),
        tr ++ [.Exec (some localPath) "fossil" ["update"]]) ∧
    create.tool = some "fossil" ∧ opn.tool = some "fossile" ∧ create.tool ≠ opn.tool := by
  intro dir mk create cd opn r
  have hc := fossil_clone_cases w remote localPath shallow tr
  rw [hdir, hcreate] at hc
  simp only [] at hc
  refine ⟨?_, ?_, ?_, ?_, ?_, ?_⟩
  · intro err hcd
    have hr : r = (some err, tr ++ [mk, create, cd]) := by
      rw [hcd] at hc
      exact hc
    refine ⟨hr, ?_⟩
    rw [hr, issued_append]
    simp [mk, create, cd, Call.isExec]
  · intro hcd
    rw [hcd] at hc
    exact hc
  · simp [FossilBackend, utils.RunInDir, perform]
  · rfl
  · rfl
  · simp [create, opn, Call.tool]

/-- Witness for C9: cloning to `/r/a`, once in a world where `os.Chdir` fails
and once in a world where everything succeeds. -/
theorem fossil_clone_chdir_and_tool_witness :
    FossilBackend.Clone (failOn (.Chdir "/r/") "no such file or directory")
        ⟨"https://h/x"⟩ "/r/a" false [] =
      (some "no such file or directory", [.MkdirAll "/r/" 0o755,
        .Exec none "fossil" ["clone", "https://h/x", "/r/.fossil"], .Chdir "/r/"]) ∧
    FossilBackend.Clone allSucceed ⟨"https://h/x"⟩ "/r/a" false [] =
      (none, [.MkdirAll "/r/" 0o755,
        .Exec none "fossil" ["clone", "https://h/x", "/r/.fossil"],
        .Chdir "/r/", .Exec none "fossile" ["open", ".fossil"]]) :=
  ⟨((fossil_clone_chdir_and_tool (failOn (.Chdir "/r/") "no such file or directory")
      ⟨"https://h/x"⟩ "/r/a" false [] (by decide) (by decide)).1
      "no such file or directory" (by decide)).1,
    (fossil_clone_chdir_and_tool allSucceed ⟨"https://h/x"⟩ "/r/a" false [] rfl rfl).2.1 rfl⟩

end Vcs
